import Mathlib

/-!
# Verification of the KingdomExp travel-request bot

A shallow embedding of the bot's conversation state machine and its
persistence helpers (`handlers/travel_handlers.py`,
`keyboards/travel_keyboards.py`), together with proofs of the behavioural
properties stated in the specification.

Conventions used throughout:
* Python strings are Lean `String`s; `str.strip()` is the list-based
  `pyStrip` (ASCII whitespace; the Unicode corner of Python's `strip` is
  out of scope).
* Python `None`-able dict entries are `Option` fields; a key that is absent
  and a key stored as `None` are conflated (the handlers only ever
  distinguish them through `dict.get` with a default, which treats both
  alike).
* The chat transport (message sending/deleting, keyboards as rendered
  widgets) is presentation-only plumbing and is not part of the state
  model; only the callback-data strings it produces are modelled, since
  the handlers dispatch on them.
-/

namespace KEBot

/-! ## Small Python-string helpers -/

/-- Prefix test on character lists (decidable-equality based). -/
def isPre : List Char → List Char → Bool
  | [], _ => true
  | _ :: _, [] => false
  | p :: ps, c :: cs => if p = c then isPre ps cs else false

/-- Python `s.startswith(pat)`. -/
def strStartsWith (pat s : String) : Bool := isPre pat.data s.data

/-- Worker for `Python str.replace(pat, "")`: remove every non-overlapping,
leftmost occurrence of `pat`.  `skip` counts characters of an already
matched occurrence that still have to be consumed without being emitted. -/
def removeAllGo (pat : List Char) : Nat → List Char → List Char
  | _, [] => []
  | skip + 1, _ :: rest => removeAllGo pat skip rest
  | 0, c :: rest =>
    if pat.length ≠ 0 ∧ isPre pat (c :: rest) = true then
      removeAllGo pat (pat.length - 1) rest
    else
      c :: removeAllGo pat 0 rest

/-- `Python s.replace(pat, "")`, as used by the handlers to extract button
payloads from callback data (`callback.data.replace(prefix, "")`). -/
def removeAllStr (pat s : String) : String :=
  String.mk (removeAllGo pat.data 0 s.data)

/-- `Python str.split(sep)` for a one-character separator: split on every
occurrence, keeping empty chunks. -/
def splitChar (sep : Char) (cs : List Char) : List (List Char) :=
  match cs with
  | [] => [[]]
  | c :: rest =>
    if c = sep then
      [] :: splitChar sep rest
    else
      match splitChar sep rest with
      | [] => [[c]]
      | h :: t => (c :: h) :: t

/-- `data_str.split("_")[2]` as used by the calendar handler. -/
def splitPart2 (s : String) : String :=
  String.mk ((splitChar '_' s.data).getD 2 [])

/-- Decimal digits of a natural number, most significant first; `fuel`
bounds the recursion so the function evaluates by plain reduction. -/
def natDigitsGo : Nat → Nat → List Char → List Char
  | 0, _, acc => acc
  | fuel + 1, n, acc =>
    if n = 0 then acc
    else natDigitsGo fuel (n / 10) (Char.ofNat (48 + n % 10) :: acc)

/-- Decimal rendering of a natural number (Python `str` / f-string `{n}`). -/
def natToStr (n : Nat) : String :=
  if n = 0 then "0" else String.mk (natDigitsGo (n + 1) n [])

/-- Python `str(i)` for an `int`. -/
def pyIntStr (i : Int) : String :=
  if i < 0 then "-" ++ natToStr i.natAbs else natToStr i.toNat

/-- Python `str.strip()`: drop whitespace from both ends (list-based so
that it evaluates by reduction). -/
def pyStrip (s : String) : String :=
  String.mk (((s.data.dropWhile Char.isWhitespace).reverse.dropWhile Char.isWhitespace).reverse)

/-- Digit run validity for Python `int(...)` after the leading sign:
nonempty, every underscore flanked by digits on both sides. -/
def pyDigitTail : List Char → Bool
  | [] => true
  | ['_'] => false
  | '_' :: c :: rest => c.isDigit && pyDigitTail (c :: rest)
  | c :: rest => c.isDigit && pyDigitTail rest

/-- A valid Python digit sequence: starts with a digit, underscores only
between digits. -/
def pyDigitSeq : List Char → Bool
  | [] => false
  | c :: rest => c.isDigit && pyDigitTail rest

/-- Numeric value of a digit/underscore run. -/
def digitsVal (cs : List Char) : Nat :=
  (cs.filter (· ≠ '_')).foldl (fun acc c => acc * 10 + (c.toNat - 48)) 0

/-- Model of Python's `int(s)`: surrounding whitespace stripped, then an
optional sign followed by a digit run (single underscores between digits
allowed); anything else raises `ValueError`, modelled as `none`. -/
def pyParseInt (s : String) : Option Int :=
  match (pyStrip s).data with
  | '+' :: rest => if pyDigitSeq rest then some (digitsVal rest : Int) else none
  | '-' :: rest => if pyDigitSeq rest then some (-(digitsVal rest : Int)) else none
  | rest => if pyDigitSeq rest then some (digitsVal rest : Int) else none

/-! ## `format_phone_number` (travel_handlers.py lines 83-90) -/

/-- `format_phone_number`: `None`/empty → `""`; otherwise strip every
non-digit character and, if any digit remains, prefix `+`. -/
def format_phone_number : Option String → String
  | none => ""
  | some phone =>
    if phone = "" then ""
    else
      let digits := String.mk (phone.data.filter Char.isDigit)
      if digits = "" then "" else "+" ++ digits

lemma string_mk_eq_empty_iff (l : List Char) : String.mk l = "" ↔ l = [] := by
  constructor
  · intro h
    have := congrArg String.data h
    simpa using this
  · intro h
    simp [h]

lemma format_phone_number_of_digit {s : String}
    (h : s.data.any Char.isDigit = true) :
    format_phone_number (some s) = "+" ++ String.mk (s.data.filter Char.isDigit) := by
  obtain ⟨c, hc, hdig⟩ := List.any_eq_true.mp h
  have hs : s ≠ "" := by
    intro he
    rw [he] at hc
    simp at hc
  have hne : s.data.filter Char.isDigit ≠ [] := by
    have : c ∈ s.data.filter Char.isDigit := List.mem_filter.mpr ⟨hc, hdig⟩
    exact List.ne_nil_of_mem this
  rw [format_phone_number, if_neg hs]
  simp only
  rw [if_neg (fun hcon => hne ((string_mk_eq_empty_iff _).mp hcon))]

lemma format_phone_number_no_digit {s : String}
    (h : s.data.any Char.isDigit = false) :
    format_phone_number (some s) = "" := by
  by_cases hs : s = ""
  · rw [hs]; rfl
  · rw [format_phone_number, if_neg hs]
    simp only
    rw [if_pos]
    rw [string_mk_eq_empty_iff]
    rw [List.filter_eq_nil_iff]
    intro c hc
    have := List.any_eq_false.mp (by exact h)
    exact fun hd => (this c hc) hd

/-! ## Conversation state machine (travel_handlers.py)

States mirror `states/travel_form.py` (`TravelForm`); the per-user FSM data
dict becomes `SessionData`.  Only presentation-free state transitions are
modelled; message rendering and deletion are plumbing.  The submission
handlers (`referral_source` / `other_referral` states) additionally touch
the persistent stores and are modelled separately on `World` below. -/

/-- The `TravelForm` states group. -/
inductive Step
  | phone | current_city | cities_to_visit | other_city | days | other_days
  | people | other_people | need_translator | translator_language
  | other_language | start_date | review | lang_code | referral_source
  | other_referral
  deriving DecidableEq, Repr

/-- The FSM data dict.  A dict key that is absent or stored as `None` is
`none`; keys that only drive presentation (`last_bot_message_id`,
`change_language_only`) are omitted. -/
structure SessionData where
  user_id : Option Int := none
  first_name : Option String := none
  full_name : Option String := none
  lang_code : Option String := none
  phone : Option String := none
  current_city : Option String := none
  cities_to_visit : Option (List String) := none
  other_cities : Option (List String) := none
  days : Option String := none
  people : Option String := none
  need_translator : Option String := none
  translator_language : Option String := none
  start_date : Option String := none
  referral_source : Option String := none
  editing_field : Option String := none
  deriving DecidableEq, Repr

/-- One user's conversation: current FSM state (possibly cleared) plus data. -/
structure Conv where
  st : Option Step := none
  d : SessionData := {}
  deriving DecidableEq, Repr

/-- Inbound user events the modelled handlers consume.  A shared location is
carried as its already formatted `"Lat: x, Lon: y"` string (the float
formatting itself is presentation). -/
inductive Event
  | text (s : String)
  | contact (phone : String)
  | location (formatted : String)
  | callback (data : String)

/-- The eight preset destination cities (travel_keyboards.py line 29 and
travel_handlers.py line 870). -/
def knownCities : List String :=
  ["Мекка", "Медина", "Дубай", "Стамбул", "Шарм-эш-Шейх", "Каир", "Доха", "Джидда"]

/-- aiogram router filter `F.text.regexp(r'[\+]?[1-9][\d]{0,15}')`: a
`re.match` anchored only at the start; since the trailing `[\d]{0,15}` can
match zero characters, the filter accepts exactly the texts whose first
character is a digit 1-9, or a `+` followed by a digit 1-9. -/
def phoneTextFilter (t : String) : Bool :=
  match t.data with
  | '+' :: c :: _ => decide ('1' ≤ c ∧ c ≤ '9')
  | c :: _ => decide ('1' ≤ c ∧ c ≤ '9')
  | [] => false

/-- `show_review` (lines 1156-1198): re-renders the summary and moves the
FSM to the review state; data untouched. -/
def show_review (conv : Conv) : Conv := { conv with st := some .review }

/-- `show_start_date_calendar` (lines 1121-1153): renders the calendar and
moves the FSM to the start-date state; data untouched. -/
def show_start_date_calendar (conv : Conv) : Conv := { conv with st := some .start_date }

/-- `process_phone` (lines 736-781): store the normalized phone; in edit
mode return to review, otherwise continue to the current-city step.  An
empty normalization re-prompts without mutating state. -/
def process_phone (conv : Conv) (phone : Option String) : Conv :=
  let formatted := format_phone_number phone
  if formatted = "" then conv
  else
    let d := { conv.d with phone := some formatted }
    if d.editing_field = some "phone" then
      show_review { conv with d := { d with editing_field := none } }
    else
      { st := some .current_city, d := d }

/-- Shared tail of `process_current_city` (lines 784-826) once a candidate
city string is known (`if city:` onward). -/
def storeCurrentCity (conv : Conv) (city : String) : Conv :=
  if city = "" then conv
  else
    let d := { conv.d with current_city := some city }
    if d.editing_field = some "current_city" then
      show_review { conv with d := { d with editing_field := none } }
    else
      { st := some .cities_to_visit,
        d := { d with cities_to_visit := some [], other_cities := some [] } }

/-- `process_current_city`: location events store the formatted location
string; text is stripped and must have length ≥ 2. -/
def process_current_city (conv : Conv) (ev : Event) : Conv :=
  match ev with
  | .location s => storeCurrentCity conv s
  | .text t =>
    let city := pyStrip t
    if city.length < 2 then conv else storeCurrentCity conv city
  | _ => conv

/-- The toggle branch of `process_city_selection` (lines 863-879). -/
def applyCityToggle (sel oth : List String) (name : String) : List String × List String :=
  if name ∈ sel then (sel.erase name, oth)
  else if name ∈ oth then (sel, oth.erase name)
  else if name ∈ knownCities then (sel ++ [name], oth)
  else (sel, oth ++ [name])

/-- `process_city_selection` (lines 829-879): "done" is rejected while both
lists are empty, otherwise advances (or returns to review in edit mode);
"other" opens the free-text sub-step; any other payload toggles a city. -/
def process_city_selection (conv : Conv) (data : String) : Conv :=
  let sel := conv.d.cities_to_visit.getD []
  let oth := conv.d.other_cities.getD []
  let name := removeAllStr "city_" data
  if name = "done" then
    if sel.length + oth.length = 0 then conv
    else if conv.d.editing_field = some "cities" then
      show_review { conv with d := { conv.d with editing_field := none } }
    else { conv with st := some .days }
  else if name = "other" then { conv with st := some .other_city }
  else
    let p := applyCityToggle sel oth name
    { conv with d := { conv.d with cities_to_visit := some p.1, other_cities := some p.2 } }

/-- `process_other_city` (lines 882-909): stripped text of length ≥ 2 is
appended to the custom list (deduplicated) and the FSM returns to the
city-selection state. -/
def process_other_city (conv : Conv) (t : String) : Conv :=
  let city := pyStrip t
  if city.length < 2 then conv
  else
    let oth := conv.d.other_cities.getD []
    let oth' := if city ∈ oth then oth else oth ++ [city]
    { st := some .cities_to_visit, d := { conv.d with other_cities := some oth' } }

/-- `process_days` (lines 912-938). -/
def process_days (conv : Conv) (data : String) : Conv :=
  let v := removeAllStr "days_" data
  if v = "other" then { conv with st := some .other_days }
  else
    let d := { conv.d with days := some v }
    if conv.d.editing_field = some "days" then
      show_review { conv with d := { d with editing_field := none } }
    else { st := some .people, d := d }

/-- `process_other_days` (lines 941-972): `int(text.strip())`, rejected
below 1 (and on any parse error) without mutating state. -/
def process_other_days (conv : Conv) (t : String) : Conv :=
  match pyParseInt (pyStrip t) with
  | none => conv
  | some n =>
    if n < 1 then conv
    else
      let d := { conv.d with days := some (pyIntStr n) }
      if d.editing_field = some "days" then
        show_review { conv with d := { d with editing_field := none } }
      else { st := some .people, d := d }

/-- `process_people` (lines 975-1001). -/
def process_people (conv : Conv) (data : String) : Conv :=
  let v := removeAllStr "people_" data
  if v = "4plus" then { conv with st := some .other_people }
  else
    let d := { conv.d with people := some v }
    if conv.d.editing_field = some "people" then
      show_review { conv with d := { d with editing_field := none } }
    else { st := some .need_translator, d := d }

/-- `process_other_people` (lines 1004-1035): `int(text.strip())`, rejected
below 5 (and on any parse error) without mutating state. -/
def process_other_people (conv : Conv) (t : String) : Conv :=
  match pyParseInt (pyStrip t) with
  | none => conv
  | some n =>
    if n < 5 then conv
    else
      let d := { conv.d with people := some (pyIntStr n) }
      if d.editing_field = some "people" then
        show_review { conv with d := { d with editing_field := none } }
      else { st := some .need_translator, d := d }

/-- `process_translator` (lines 1038-1068): "yes" stores the flag and moves
on to language selection (identical in and out of edit mode); any other
answer stores "No", clears the language, and returns to review in edit mode
or proceeds to the calendar otherwise. -/
def process_translator (conv : Conv) (data : String) : Conv :=
  let answer := removeAllStr "translator_" data
  if answer = "yes" then
    { st := some .translator_language, d := { conv.d with need_translator := some "Yes" } }
  else
    let d := { conv.d with need_translator := some "No", translator_language := some "" }
    if conv.d.editing_field = some "translator" then
      show_review { conv with d := { d with editing_field := none } }
    else show_start_date_calendar { conv with d := d }

/-- `process_language` (lines 1071-1090). -/
def process_language (conv : Conv) (data : String) : Conv :=
  let lang := removeAllStr "lang_" data
  if lang = "other" then { conv with st := some .other_language }
  else
    let d := { conv.d with translator_language := some lang }
    if d.editing_field = some "translator" then
      show_review { conv with d := { d with editing_field := none } }
    else show_start_date_calendar { conv with d := d }

/-- `process_other_language` (lines 1093-1118): stripped text of length ≥ 1. -/
def process_other_language (conv : Conv) (t : String) : Conv :=
  let language := pyStrip t
  if language.length < 1 then conv
  else
    let d := { conv.d with translator_language := some language }
    if d.editing_field = some "translator" then
      show_review { conv with d := { d with editing_field := none } }
    else show_start_date_calendar { conv with d := d }

/-- `process_date_calendar` (lines 1325-1399).  Month navigation only
re-renders the keyboard; `cal_day_` stores the split-out date and shows the
confirmation sub-step (state unchanged); `cal_skip` stores `""` and
`cal_confirm_` the split-out date, both returning to review. -/
def process_date_calendar (conv : Conv) (data : String) : Conv :=
  if data = "cal_ignore" then conv
  else if strStartsWith "cal_prev_" data || strStartsWith "cal_next_" data then conv
  else if strStartsWith "cal_day_" data then
    { conv with d := { conv.d with start_date := some (splitPart2 data) } }
  else if data = "cal_skip" then
    show_review { conv with d := { conv.d with start_date := some "" } }
  else if strStartsWith "cal_confirm_" data then
    show_review { conv with d := { conv.d with start_date := some (splitPart2 data) } }
  else conv

/-- `process_edit_field` (lines 1414-1470): set the editing marker and
re-enter the chosen field's step; "dates" clears the marker again and shows
the calendar (whose confirm/skip actions return to review unconditionally). -/
def process_edit_field (conv : Conv) (data : String) : Conv :=
  let field := removeAllStr "edit_" data
  let d := { conv.d with editing_field := some field }
  if field = "phone" then { st := some .phone, d := d }
  else if field = "current_city" then { st := some .current_city, d := d }
  else if field = "cities" then { st := some .cities_to_visit, d := d }
  else if field = "days" then { st := some .days, d := d }
  else if field = "people" then { st := some .people, d := d }
  else if field = "translator" then { st := some .need_translator, d := d }
  else if field = "dates" then
    show_start_date_calendar { conv with d := { d with editing_field := none } }
  else { conv with d := d }

/-- `process_confirm` (lines 1264-1278): merge the two city lists into
`cities_to_visit` and move on to the referral question. -/
def process_confirm (conv : Conv) : Conv :=
  let all := conv.d.cities_to_visit.getD [] ++ conv.d.other_cities.getD []
  { st := some .referral_source, d := { conv.d with cities_to_visit := some all } }

/-- One dispatch round: the aiogram router keys each event on
(current state, event shape/payload filter); unmatched events fall through
to `handle_unexpected`, which never mutates state. -/
def stepConv (conv : Conv) (ev : Event) : Conv :=
  match conv.st with
  | none => conv
  | some step =>
    match step, ev with
    | .phone, .text t => if phoneTextFilter t then process_phone conv (some (pyStrip t)) else conv
    | .phone, .contact p => process_phone conv (some p)
    | .current_city, ev => process_current_city conv ev
    | .cities_to_visit, .callback data =>
      if strStartsWith "city_" data then process_city_selection conv data else conv
    | .other_city, .text t => process_other_city conv t
    | .days, .callback data =>
      if strStartsWith "days_" data then process_days conv data else conv
    | .other_days, .text t => process_other_days conv t
    | .people, .callback data =>
      if strStartsWith "people_" data then process_people conv data else conv
    | .other_people, .text t => process_other_people conv t
    | .need_translator, .callback data =>
      if strStartsWith "translator_" data then process_translator conv data else conv
    | .translator_language, .callback data =>
      if strStartsWith "lang_" data then process_language conv data else conv
    | .other_language, .text t => process_other_language conv t
    | .start_date, .callback data =>
      if strStartsWith "cal_" data then process_date_calendar conv data else conv
    | .review, .callback data =>
      if data = "review_confirm" then process_confirm conv
      else if data = "review_edit" then conv
      else if strStartsWith "edit_" data then process_edit_field conv data
      else conv
    | _, _ => conv

/-- Run a sequence of events through the dispatcher. -/
def runEvents (conv : Conv) (evs : List Event) : Conv := evs.foldl stepConv conv

/-- A whole sequence of city toggles, folded left like the corresponding
sequence of toggle callbacks. -/
def applyCityToggles (p : List String × List String) (names : List String) :
    List String × List String :=
  names.foldl (fun q n => applyCityToggle q.1 q.2 n) p

/-! ## Calendar keyboard (travel_keyboards.py lines 137-217)

The day-grid of `get_calendar_keyboard`: Python's `calendar.monthcalendar`
(weeks starting Monday, zero-padded) with per-day callback data.  Button
captions are presentation and not modelled. -/

/-- A calendar date, ordered like Python `datetime.date`. -/
structure Date where
  year : Nat
  month : Nat
  day : Nat
  deriving DecidableEq, Repr

/-- Python `date` comparison (lexicographic year, month, day). -/
def Date.ltB (a b : Date) : Bool :=
  a.year < b.year ||
    (a.year = b.year && (a.month < b.month || (a.month = b.month && a.day < b.day)))

/-- Gregorian leap year. -/
def isLeap (y : Nat) : Bool := (y % 4 = 0 && y % 100 ≠ 0) || y % 400 = 0

/-- Length of a month. -/
def monthLen (y m : Nat) : Nat :=
  if m = 2 then (if isLeap y then 29 else 28)
  else if m = 4 ∨ m = 6 ∨ m = 9 ∨ m = 11 then 30
  else 31

/-- Days in all years strictly before `y` (proleptic Gregorian). -/
def daysBeforeYear (y : Nat) : Nat :=
  let n := y - 1
  n * 365 + n / 4 - n / 100 + n / 400

/-- Days in the months of year `y` strictly before month `m`. -/
def daysBeforeMonth (y m : Nat) : Nat :=
  (List.range (m - 1)).foldl (fun acc i => acc + monthLen y (i + 1)) 0

/-- Python `date(y, m, d).toordinal()` (0001-01-01 ↦ 1). -/
def toOrdinal (y m day : Nat) : Nat := daysBeforeYear y + daysBeforeMonth y m + day

/-- Python `date.weekday()`: Monday = 0. -/
def pyWeekday (y m day : Nat) : Nat := (toOrdinal y m day + 6) % 7

/-- Rows of seven; `fuel` bounds the recursion so the function evaluates
by plain reduction (each row consumes at least one element). -/
def chunksGo : Nat → List Nat → List (List Nat)
  | 0, _ => []
  | fuel + 1, l =>
    match l with
    | [] => []
    | _ :: _ => l.take 7 :: chunksGo fuel (l.drop 7)

/-- Rows of seven. -/
def chunks7 (l : List Nat) : List (List Nat) := chunksGo l.length l

/-- Python `calendar.monthcalendar(y, m)`: Monday-first weeks, days outside
the month as 0. -/
def monthcalendar (y m : Nat) : List (List Nat) :=
  let first := pyWeekday y m 1
  let cells := List.replicate first 0 ++ (List.range (monthLen y m)).map (· + 1)
  let pad := (7 - cells.length % 7) % 7
  chunks7 (cells ++ List.replicate pad 0)

/-- `f"{n:02d}"` for the 1..31 values that occur. -/
def pad2 (n : Nat) : String := if n < 10 then "0" ++ natToStr n else natToStr n

/-- `f"{year}-{month:02d}-{day:02d}"`. -/
def isoDateStr (dt : Date) : String :=
  natToStr dt.year ++ "-" ++ pad2 dt.month ++ "-" ++ pad2 dt.day

/-- Callback data of one day cell of the rendered grid: empty cells and
days strictly before `today` get the inert `cal_ignore`; every other day is
selectable and carries its ISO date. -/
def dayCellCallback (year month day : Nat) (today : Date) : String :=
  if day = 0 then "cal_ignore"
  else if Date.ltB ⟨year, month, day⟩ today then "cal_ignore"
  else "cal_day_" ++ isoDateStr ⟨year, month, day⟩

/-- The day-grid callbacks of `get_calendar_keyboard`, rendered at an
instant whose `datetime.now().date()` is `today`. -/
def get_calendar_day_callbacks (year month : Nat) (today : Date) : List (List String) :=
  (monthcalendar year month).map fun week =>
    week.map fun day => dayCellCallback year month day today

/-! ## Persistence (travel_handlers.py lines 102-203, 280-291)

Submission log (`data/users.csv`), pending-request queue
(`data/pending_requests.json`) and the user-language store
(`data/user_languages.json`).  File contents are modelled in memory; a
whole-file read is abstracted as a `FileRead`. -/

/-- A decoded JSON value. -/
inductive JValue
  | null
  | bool (b : Bool)
  | num (n : Int)
  | str (s : String)
  | arr (items : List JValue)
  | obj (fields : List (String × JValue))

/-- Outcome of `os.path.exists` + `open` + `json.load` on a store file. -/
inductive FileRead
  | missing
  | unreadable
  | invalid
  | parsed (v : JValue)

/-- Python exceptions that can escape the modelled readers. -/
inductive PyError
  | osError
  | attributeError
  deriving DecidableEq, Repr

/-- `load_pending_requests` (lines 102-113): missing file, `OSError`,
`JSONDecodeError` and non-list JSON all collapse to the empty list. -/
def load_pending_requests : FileRead → List JValue
  | .missing => []
  | .unreadable => []
  | .invalid => []
  | .parsed v =>
    match v with
    | .arr items => items
    | _ => []

/-- Python dict lookup on a decoded JSON object; `json.load` keeps the last
binding of a duplicated key. -/
def pyDictGet (fields : List (String × JValue)) (key : String) : Option JValue :=
  fields.reverse.lookup key

/-- `get_user_language` (lines 280-291): the `open` call sits outside the
`try`, so an unreadable file raises `OSError`; only `JSONDecodeError` is
caught; `.get` on a decoded non-dict value raises `AttributeError`. -/
def get_user_language (file : FileRead) (user_id : Int) : Except PyError (Option JValue) :=
  match file with
  | .missing => .ok none
  | .unreadable => .error .osError
  | .invalid => .ok none
  | .parsed (.obj fields) => .ok (pyDictGet fields (pyIntStr user_id))
  | .parsed _ => .error .attributeError

/-- The fixed CSV header of `save_to_csv` (lines 173-185). -/
def csvFieldnames : List String :=
  ["timestamp", "full_name", "phone", "current_city", "cities_to_visit",
   "days", "people", "need_translator", "translator_language", "start_date",
   "referral_source"]

/-- The row `save_to_csv` writes for FSM data `d` at timestamp `now`
(lines 191-203), in header order. -/
def csvRow (now : String) (d : SessionData) : List String :=
  [now,
   d.full_name.getD "",
   d.phone.getD "",
   d.current_city.getD "",
   String.intercalate ", " (d.cities_to_visit.getD []),
   d.days.getD "",
   d.people.getD "",
   d.need_translator.getD "",
   d.translator_language.getD "",
   d.start_date.getD "",
   d.referral_source.getD ""]

/-- `save_to_csv` (lines 168-203): append one row, writing the header first
when the file does not yet exist (modelled as the empty file). -/
def save_to_csv (now : String) (d : SessionData) (file : List (List String)) :
    List (List String) :=
  (if file.isEmpty then [csvFieldnames] else file) ++ [csvRow now d]

/-- `extract_admin_payload` (lines 93-99) restricted to
`REQUEST_PAYLOAD_KEYS`. -/
structure AdminPayload where
  user_id : Option Int := none
  first_name : Option String := none
  full_name : Option String := none
  phone : Option String := none
  current_city : Option String := none
  cities_to_visit : Option (List String) := none
  other_cities : Option (List String) := none
  days : Option String := none
  people : Option String := none
  need_translator : Option String := none
  translator_language : Option String := none
  start_date : Option String := none
  referral_source : Option String := none
  lang_code : Option String := none
  deriving DecidableEq, Repr

/-- `extract_admin_payload`: copy exactly the payload keys out of the FSM
data. -/
def extract_admin_payload (d : SessionData) : AdminPayload :=
  { user_id := d.user_id, first_name := d.first_name, full_name := d.full_name,
    phone := d.phone, current_city := d.current_city,
    cities_to_visit := d.cities_to_visit, other_cities := d.other_cities,
    days := d.days, people := d.people, need_translator := d.need_translator,
    translator_language := d.translator_language, start_date := d.start_date,
    referral_source := d.referral_source, lang_code := d.lang_code }

/-- One entry of `data/pending_requests.json` (lines 122-133). -/
structure PendingEntry where
  id : String
  status : String
  created_at : String
  payload : AdminPayload
  processed_by : Option Int := none
  processed_at : Option String := none
  deriving DecidableEq, Repr

/-- `add_pending_request` (lines 122-133): fresh id, status "new", newest
first. -/
def add_pending_request (freshId now : String) (payload : AdminPayload)
    (store : List PendingEntry) : List PendingEntry :=
  { id := freshId, status := "new", created_at := now, payload := payload } :: store

/-- The per-entry update of `mark_request_processed` (lines 158-160). -/
def markEntry (e : PendingEntry) (admin_id : Int) (now : String) : PendingEntry :=
  { e with status := "processed", processed_by := some admin_id, processed_at := some now }

/-- `mark_request_processed` (lines 152-165): update the first entry whose
id matches — whatever its current status — and report whether anything was
updated. -/
def mark_request_processed (requests : List PendingEntry) (request_id : String)
    (admin_id : Int) (now : String) : List PendingEntry × Bool :=
  match requests with
  | [] => ([], false)
  | e :: rest =>
    if e.id = request_id then
      (markEntry e admin_id now :: rest, true)
    else
      let r := mark_request_processed rest request_id admin_id now
      (e :: r.1, r.2)

/-- Conversation state plus the two file-backed stores. -/
structure World where
  conv : Conv
  csvFile : List (List String)
  pending : List PendingEntry
  deriving DecidableEq, Repr

/-- `finalize_submission` (lines 1201-1231): log the snapshot to CSV, queue
a pending request from the filtered payload, then clear the conversation
(admin notification is best-effort I/O and not state). -/
def finalize_submission (now freshId : String) (w : World) : World :=
  { conv := { st := none, d := {} },
    csvFile := save_to_csv now w.conv.d w.csvFile,
    pending := add_pending_request freshId now (extract_admin_payload w.conv.d) w.pending }

/-! ## C2 / C10: phone normalization -/

/-- C2: for every phone input string containing at least one digit
character, `format_phone_number` returns exactly `+` followed by the digits
of the input in their original order, with no other characters. -/
theorem phone_normalization_C2 (s : String) (h : s.data.any Char.isDigit = true) :
    format_phone_number (some s) = "+" ++ String.mk (s.data.filter Char.isDigit) :=
  format_phone_number_of_digit h

theorem phone_normalization_C2_witness :
    "a1b2-3".data.any Char.isDigit = true ∧
      format_phone_number (some "a1b2-3") = "+123" :=
  ⟨by decide, by rw [phone_normalization_C2 "a1b2-3" (by decide)]; rfl⟩

lemma plus_append_ne_empty (l : List Char) : "+" ++ String.mk l ≠ "" := by
  intro h
  have := congrArg String.data h
  simp [String.data_append] at this

/-- C10: a `None` input or an input with no digit character normalizes to
the empty string — never a bare `+` — so every non-empty normalized phone
value is `+` followed by at least one digit. -/
theorem phone_empty_C10 :
    format_phone_number none = "" ∧
    (∀ s : String, s.data.any Char.isDigit = false → format_phone_number (some s) = "") ∧
    (∀ p : Option String, format_phone_number p ≠ "" →
      (format_phone_number p).data.head? = some '+' ∧
      (format_phone_number p).data.tail ≠ [] ∧
      (format_phone_number p).data.tail.all Char.isDigit = true) := by
  refine ⟨rfl, fun s h => format_phone_number_no_digit h, ?_⟩
  intro p hp
  match p with
  | none => exact absurd rfl hp
  | some s =>
    by_cases hda : s.data.any Char.isDigit = true
    · rw [format_phone_number_of_digit hda]
      obtain ⟨c, hc, hdig⟩ := List.any_eq_true.mp hda
      have hmem : c ∈ s.data.filter Char.isDigit := List.mem_filter.mpr ⟨hc, hdig⟩
      have hne : s.data.filter Char.isDigit ≠ [] := List.ne_nil_of_mem hmem
      refine ⟨?_, ?_, ?_⟩
      · simp [String.data_append]
      · simpa [String.data_append] using hne
      · simp only [String.data_append]
        rw [List.all_eq_true]
        intro x hx
        simp only [List.singleton_append, List.tail_cons] at hx
        exact (List.mem_filter.mp hx).2
    · rw [format_phone_number_no_digit (Bool.eq_false_iff.mpr hda)] at hp
      exact absurd rfl hp

theorem phone_empty_C10_witness :
    format_phone_number (some "xy-z") = "" ∧
    (format_phone_number (some "a7")).data.head? = some '+' ∧
    (format_phone_number (some "a7")).data.tail ≠ [] ∧
    (format_phone_number (some "a7")).data.tail.all Char.isDigit = true :=
  ⟨phone_empty_C10.2.1 "xy-z" (by decide), phone_empty_C10.2.2 (some "a7") (by decide)⟩

/-! ## C3: marking a pending request processed -/

/-- C3 counterexample: re-marking an entry whose status is already
"processed" reports success (`true`), not failure as the claim states. -/
theorem mark_processed_C3_counterexample :
    (mark_request_processed
        [{ id := "r1", status := "processed", created_at := "t0", payload := {},
           processed_by := some 1, processed_at := some "t1" }] "r1" 2 "t2").2 = true := rfl

/-- C3 (amended): marking an identifier with no matching entry reports
failure and leaves the store unchanged; marking an identifier with a
matching entry — whether its status is "new" or already "processed" —
reports success and leaves that entry with status "processed". -/
theorem mark_processed_C3 (requests : List PendingEntry) (request_id : String)
    (admin_id : Int) (now : String) :
    ((∀ e ∈ requests, e.id ≠ request_id) →
      mark_request_processed requests request_id admin_id now = (requests, false)) ∧
    ((∃ e ∈ requests, e.id = request_id) →
      (mark_request_processed requests request_id admin_id now).2 = true ∧
      ∃ e ∈ (mark_request_processed requests request_id admin_id now).1,
        e.id = request_id ∧ e.status = "processed") := by
  induction requests with
  | nil =>
    refine ⟨fun _ => rfl, ?_⟩
    rintro ⟨e, he, -⟩
    exact absurd he (List.not_mem_nil e)
  | cons a rest ih =>
    constructor
    · intro h
      have ha : a.id ≠ request_id := h a (List.mem_cons_self a rest)
      have hrest := ih.1 fun e he => h e (List.mem_cons_of_mem a he)
      simp only [mark_request_processed, if_neg ha, hrest]
    · rintro ⟨e, he, heq⟩
      by_cases ha : a.id = request_id
      · have hres : mark_request_processed (a :: rest) request_id admin_id now =
            (markEntry a admin_id now :: rest, true) := by
          simp only [mark_request_processed, if_pos ha]
        rw [hres]
        exact ⟨rfl, ⟨markEntry a admin_id now, List.mem_cons_self _ _, ha, rfl⟩⟩
      · have hemem : e ∈ rest := by
          rcases List.mem_cons.mp he with rfl | hmem
          · exact absurd heq ha
          · exact hmem
        obtain ⟨hsnd, f, hf, hfid, hfst⟩ := ih.2 ⟨e, hemem, heq⟩
        simp only [mark_request_processed, if_neg ha]
        exact ⟨hsnd, f, List.mem_cons_of_mem a hf, hfid, hfst⟩

theorem mark_processed_C3_witness :
    mark_request_processed
        [{ id := "r1", status := "new", created_at := "t0", payload := {} }] "zz" 2 "t2" =
      ([{ id := "r1", status := "new", created_at := "t0", payload := {} }], false) ∧
    (mark_request_processed
        [{ id := "r1", status := "new", created_at := "t0", payload := {} }] "r1" 2 "t2").2 = true ∧
    ∃ e ∈ (mark_request_processed
        [{ id := "r1", status := "new", created_at := "t0", payload := {} }] "r1" 2 "t2").1,
      e.id = "r1" ∧ e.status = "processed" :=
  ⟨(mark_processed_C3 _ "zz" 2 "t2").1 (by decide),
   (mark_processed_C3 _ "r1" 2 "t2").2
     ⟨{ id := "r1", status := "new", created_at := "t0", payload := {} },
      List.mem_cons_self _ _, rfl⟩⟩

/-! ## C8: finalization -/

/-- C8: the terminal submission action appends exactly one record of the
collected fields to the submission log in the fixed column order
(timestamp, full name, phone, current city, comma-joined destination
cities, days, people, translator flag, translator language, start date,
referral source — preceded by the header when the log file did not exist
yet), pushes one pending-request entry with status "new" and a payload
snapshot of the collected fields, and clears the conversation state. -/
theorem finalize_submission_C8 (now freshId : String) (w : World) :
    (finalize_submission now freshId w).csvFile =
      (if w.csvFile.isEmpty then [csvFieldnames] else w.csvFile) ++
        [[now,
          w.conv.d.full_name.getD "",
          w.conv.d.phone.getD "",
          w.conv.d.current_city.getD "",
          String.intercalate ", " (w.conv.d.cities_to_visit.getD []),
          w.conv.d.days.getD "",
          w.conv.d.people.getD "",
          w.conv.d.need_translator.getD "",
          w.conv.d.translator_language.getD "",
          w.conv.d.start_date.getD "",
          w.conv.d.referral_source.getD ""]] ∧
    (finalize_submission now freshId w).pending =
      { id := freshId, status := "new", created_at := now,
        payload := extract_admin_payload w.conv.d } :: w.pending ∧
    (finalize_submission now freshId w).conv = { st := none, d := {} } :=
  ⟨rfl, rfl, rfl⟩

/-! ## C9: persisted-store reads -/

/-- C9 counterexample: a language-store file that holds valid JSON of the
wrong shape (a list rather than an object) makes `get_user_language` raise
`AttributeError` instead of returning the empty value. -/
theorem store_reads_C9_counterexample :
    get_user_language (.parsed (.arr [])) 1 = .error .attributeError := rfl

/-- C9 (amended): `load_pending_requests` returns the empty list for a
missing, unreadable, malformed or wrong-shape file; `get_user_language`
returns no language for a missing file or invalid JSON, but raises
`OSError` for an unreadable file and `AttributeError` for valid JSON that
is not an object. -/
theorem store_reads_C9 (user_id : Int) (items : List JValue)
    (fields : List (String × JValue)) (v : JValue) :
    load_pending_requests .missing = [] ∧
    load_pending_requests .unreadable = [] ∧
    load_pending_requests .invalid = [] ∧
    load_pending_requests (.parsed (.arr items)) = items ∧
    ((∀ l, v ≠ .arr l) → load_pending_requests (.parsed v) = []) ∧
    get_user_language .missing user_id = .ok none ∧
    get_user_language .invalid user_id = .ok none ∧
    get_user_language (.parsed (.obj fields)) user_id =
      .ok (pyDictGet fields (pyIntStr user_id)) ∧
    get_user_language .unreadable user_id = .error .osError ∧
    ((∀ fs, v ≠ .obj fs) → get_user_language (.parsed v) user_id = .error .attributeError) := by
  refine ⟨rfl, rfl, rfl, rfl, ?_, rfl, rfl, rfl, rfl, ?_⟩
  · intro h
    cases v with
    | arr l => exact absurd rfl (h l)
    | null => rfl
    | bool b => rfl
    | num n => rfl
    | str s => rfl
    | obj fs => rfl
  · intro h
    cases v with
    | obj fs => exact absurd rfl (h fs)
    | null => rfl
    | bool b => rfl
    | num n => rfl
    | str s => rfl
    | arr l => rfl

/-! ## Helper lemmas for the machine proofs -/

lemma isPre_append_self (p l : List Char) : isPre p (p ++ l) = true := by
  induction p with
  | nil => rfl
  | cons c cs ih => simpa [isPre] using ih

lemma strStartsWith_append (p s : String) : strStartsWith p (p ++ s) = true := by
  unfold strStartsWith
  rw [String.data_append]
  exact isPre_append_self p.data s.data

lemma stepConv_cities (d : SessionData) (data : String)
    (h : strStartsWith "city_" data = true) :
    stepConv ⟨some .cities_to_visit, d⟩ (.callback data) =
      process_city_selection ⟨some .cities_to_visit, d⟩ data := by
  simp [stepConv, h]

lemma process_city_selection_toggle (conv : Conv) (data name : String)
    (hname : removeAllStr "city_" data = name)
    (hdone : name ≠ "done") (hother : name ≠ "other") :
    process_city_selection conv data =
      { conv with d := { conv.d with
          cities_to_visit := some (applyCityToggle (conv.d.cities_to_visit.getD [])
            (conv.d.other_cities.getD []) name).1,
          other_cities := some (applyCityToggle (conv.d.cities_to_visit.getD [])
            (conv.d.other_cities.getD []) name).2 } } := by
  simp only [process_city_selection, hname]
  rw [if_neg hdone, if_neg hother]

lemma applyCityToggle_not_mem (sel oth : List String) (name : String)
    (hsel : name ∉ sel) (hoth : name ∉ oth) :
    applyCityToggle sel oth name =
      if name ∈ knownCities then (sel ++ [name], oth) else (sel, oth ++ [name]) := by
  unfold applyCityToggle
  rw [if_neg hsel, if_neg hoth]

lemma applyCityToggle_mem_sel (sel oth : List String) (name : String)
    (h : name ∈ sel) :
    applyCityToggle sel oth name = (sel.erase name, oth) := by
  unfold applyCityToggle
  rw [if_pos h]

lemma applyCityToggle_mem_oth (sel oth : List String) (name : String)
    (hsel : name ∉ sel) (h : name ∈ oth) :
    applyCityToggle sel oth name = (sel, oth.erase name) := by
  unfold applyCityToggle
  rw [if_neg hsel, if_pos h]

lemma erase_appended_self (l : List String) (name : String) (h : name ∉ l) :
    (l ++ [name]).erase name = l := by
  rw [List.erase_append_right _ h, List.erase_cons_head, List.append_nil]

theorem store_reads_C9_witness :
    load_pending_requests (.parsed (.num 3)) = [] ∧
    get_user_language (.parsed (.str "en")) 1 = .error .attributeError :=
  ⟨(store_reads_C9 1 [] [] (.num 3)).2.2.2.2.1 (fun l => by intro h; cases h),
   (store_reads_C9 1 [] [] (.str "en")).2.2.2.2.2.2.2.2.2 (fun fs => by intro h; cases h)⟩

/-! ## C4: city toggling -/

/-- C4: in the cities-to-visit step, toggling a city that is in neither
list puts it into exactly one of the two lists (the preset list for the
eight known cities, the custom list otherwise); toggling it a second time
restores both lists to their previous contents, the state and every other
field unchanged.  The hypotheses state that the toggled payload is the
city's own name (it contains no occurrence of `"city_"`, which the
handler's `replace` would strip) and is not one of the reserved `done` /
`other` payloads. -/
theorem city_toggle_C4 (d : SessionData) (name : String)
    (hclean : removeAllStr "city_" name = name)
    (hdone : name ≠ "done") (hother : name ≠ "other")
    (hsel : name ∉ d.cities_to_visit.getD [])
    (hoth : name ∉ d.other_cities.getD []) :
    ((name ∈ (stepConv ⟨some .cities_to_visit, d⟩
        (.callback ("city_" ++ name))).d.cities_to_visit.getD [] ∧
      name ∉ (stepConv ⟨some .cities_to_visit, d⟩
        (.callback ("city_" ++ name))).d.other_cities.getD []) ∨
     (name ∉ (stepConv ⟨some .cities_to_visit, d⟩
        (.callback ("city_" ++ name))).d.cities_to_visit.getD [] ∧
      name ∈ (stepConv ⟨some .cities_to_visit, d⟩
        (.callback ("city_" ++ name))).d.other_cities.getD [])) ∧
    (stepConv ⟨some .cities_to_visit, d⟩
        (.callback ("city_" ++ name))).st = some .cities_to_visit ∧
    stepConv (stepConv ⟨some .cities_to_visit, d⟩ (.callback ("city_" ++ name)))
        (.callback ("city_" ++ name)) =
      ⟨some .cities_to_visit,
        { d with cities_to_visit := some (d.cities_to_visit.getD []),
                 other_cities := some (d.other_cities.getD []) }⟩ := by
  have hname : removeAllStr "city_" ("city_" ++ name) = name := by
    rw [show removeAllStr "city_" ("city_" ++ name) = removeAllStr "city_" name from rfl,
        hclean]
  have hpre : strStartsWith "city_" ("city_" ++ name) = true := strStartsWith_append _ _
  have h1 : stepConv ⟨some .cities_to_visit, d⟩ (.callback ("city_" ++ name)) =
      ⟨some .cities_to_visit,
        { d with
            cities_to_visit := some (applyCityToggle (d.cities_to_visit.getD [])
              (d.other_cities.getD []) name).1,
            other_cities := some (applyCityToggle (d.cities_to_visit.getD [])
              (d.other_cities.getD []) name).2 }⟩ := by
    rw [stepConv_cities d _ hpre, process_city_selection_toggle _ _ name hname hdone hother]
  by_cases hk : name ∈ knownCities
  · have ht : applyCityToggle (d.cities_to_visit.getD []) (d.other_cities.getD []) name =
        (d.cities_to_visit.getD [] ++ [name], d.other_cities.getD []) := by
      rw [applyCityToggle_not_mem _ _ _ hsel hoth, if_pos hk]
    rw [h1, ht]
    refine ⟨Or.inl ⟨by simp, by simpa using hoth⟩, rfl, ?_⟩
    rw [stepConv_cities _ _ hpre, process_city_selection_toggle _ _ name hname hdone hother]
    simp only [Option.getD_some]
    rw [applyCityToggle_mem_sel _ _ _ (by simp), erase_appended_self _ _ hsel]
  · have ht : applyCityToggle (d.cities_to_visit.getD []) (d.other_cities.getD []) name =
        (d.cities_to_visit.getD [], d.other_cities.getD [] ++ [name]) := by
      rw [applyCityToggle_not_mem _ _ _ hsel hoth, if_neg hk]
    rw [h1, ht]
    refine ⟨Or.inr ⟨by simpa using hsel, by simp⟩, rfl, ?_⟩
    rw [stepConv_cities _ _ hpre, process_city_selection_toggle _ _ name hname hdone hother]
    simp only [Option.getD_some]
    rw [applyCityToggle_mem_oth _ _ _ hsel (by simp), erase_appended_self _ _ hoth]

theorem city_toggle_C4_witness :
    removeAllStr "city_" "Париж" = "Париж" ∧
    (("Париж" ∈ (stepConv ⟨some .cities_to_visit, {}⟩
        (.callback ("city_" ++ "Париж"))).d.cities_to_visit.getD [] ∧
      "Париж" ∉ (stepConv ⟨some .cities_to_visit, {}⟩
        (.callback ("city_" ++ "Париж"))).d.other_cities.getD []) ∨
     ("Париж" ∉ (stepConv ⟨some .cities_to_visit, {}⟩
        (.callback ("city_" ++ "Париж"))).d.cities_to_visit.getD [] ∧
      "Париж" ∈ (stepConv ⟨some .cities_to_visit, {}⟩
        (.callback ("city_" ++ "Париж"))).d.other_cities.getD [])) ∧
    stepConv (stepConv ⟨some .cities_to_visit, {}⟩ (.callback ("city_" ++ "Париж")))
        (.callback ("city_" ++ "Париж")) =
      ⟨some .cities_to_visit,
        { cities_to_visit := some [], other_cities := some [] }⟩ :=
  ⟨by decide,
   (city_toggle_C4 {} "Париж" (by decide) (by decide) (by decide) (by decide) (by decide)).1,
   (city_toggle_C4 {} "Париж" (by decide) (by decide) (by decide) (by decide) (by decide)).2.2⟩

/-! ## C5: the "done" action on city selection -/

/-- C5: "done" in the cities-to-visit step is rejected — leaving state and
data untouched — exactly when both city lists are empty; otherwise it
advances to the days step, or back to review when the editing marker is set
for the cities field. -/
theorem cities_done_C5 (d : SessionData) :
    (d.cities_to_visit.getD [] = [] ∧ d.other_cities.getD [] = [] →
      stepConv ⟨some .cities_to_visit, d⟩ (.callback "city_done") =
        ⟨some .cities_to_visit, d⟩) ∧
    (¬(d.cities_to_visit.getD [] = [] ∧ d.other_cities.getD [] = []) →
      stepConv ⟨some .cities_to_visit, d⟩ (.callback "city_done") =
        if d.editing_field = some "cities" then
          ⟨some .review, { d with editing_field := none }⟩
        else ⟨some .days, d⟩) := by
  rw [stepConv_cities d _ (by decide)]
  constructor
  · rintro ⟨hs, ho⟩
    simp only [process_city_selection]
    rw [if_pos (by decide : removeAllStr "city_" "city_done" = "done"),
        if_pos (by simp [hs, ho])]
  · intro h
    have hne : ¬((d.cities_to_visit.getD []).length + (d.other_cities.getD []).length = 0) := by
      rw [Nat.add_eq_zero, List.length_eq_zero, List.length_eq_zero]
      exact h
    simp only [process_city_selection]
    rw [if_pos (by decide : removeAllStr "city_" "city_done" = "done"), if_neg hne]
    by_cases he : d.editing_field = some "cities"
    · rw [if_pos he, if_pos he]
      rfl
    · rw [if_neg he, if_neg he]

theorem cities_done_C5_witness :
    stepConv ⟨some .cities_to_visit, {}⟩ (.callback "city_done") =
      ⟨some .cities_to_visit, {}⟩ ∧
    stepConv ⟨some .cities_to_visit, { other_cities := some ["Париж"] }⟩
        (.callback "city_done") =
      ⟨some .days, { other_cities := some ["Париж"] }⟩ :=
  ⟨(cities_done_C5 {}).1 (by decide),
   by
    rw [(cities_done_C5 { other_cities := some ["Париж"] }).2 (by decide)]
    rfl⟩

/-! ## C6: custom day / people entries -/

/-- C6: a free-text entry in the custom-days sub-step is accepted — stored
as the days field (normalized by `str(int(...))`) and advancing (or
returning to review in edit mode) — exactly when it parses as an integer
≥ 1; a custom-people entry is accepted exactly when it parses as an integer
≥ 5; every other input leaves the conversation completely unchanged. -/
theorem custom_numbers_C6 (d : SessionData) (t : String) :
    (∀ n : Int, pyParseInt (pyStrip t) = some n → 1 ≤ n →
      stepConv ⟨some .other_days, d⟩ (.text t) =
        if d.editing_field = some "days" then
          ⟨some .review, { d with days := some (pyIntStr n), editing_field := none }⟩
        else ⟨some .people, { d with days := some (pyIntStr n) }⟩) ∧
    ((∀ n : Int, pyParseInt (pyStrip t) = some n → n < 1) →
      stepConv ⟨some .other_days, d⟩ (.text t) = ⟨some .other_days, d⟩) ∧
    (∀ n : Int, pyParseInt (pyStrip t) = some n → 5 ≤ n →
      stepConv ⟨some .other_people, d⟩ (.text t) =
        if d.editing_field = some "people" then
          ⟨some .review, { d with people := some (pyIntStr n), editing_field := none }⟩
        else ⟨some .need_translator, { d with people := some (pyIntStr n) }⟩) ∧
    ((∀ n : Int, pyParseInt (pyStrip t) = some n → n < 5) →
      stepConv ⟨some .other_people, d⟩ (.text t) = ⟨some .other_people, d⟩) := by
  refine ⟨?_, ?_, ?_, ?_⟩
  · intro n hp h1
    show process_other_days ⟨some .other_days, d⟩ t = _
    simp only [process_other_days, hp]
    rw [if_neg (by omega)]
    by_cases he : d.editing_field = some "days"
    · simp only [he, if_pos, show_review]
    · simp [he]
  · intro hall
    show process_other_days ⟨some .other_days, d⟩ t = _
    cases hp : pyParseInt (pyStrip t) with
    | none => simp [process_other_days, hp]
    | some n =>
      have := hall n hp
      simp [process_other_days, hp, this]
  · intro n hp h5
    show process_other_people ⟨some .other_people, d⟩ t = _
    simp only [process_other_people, hp]
    rw [if_neg (by omega)]
    by_cases he : d.editing_field = some "people"
    · simp only [he, if_pos, show_review]
    · simp [he]
  · intro hall
    show process_other_people ⟨some .other_people, d⟩ t = _
    cases hp : pyParseInt (pyStrip t) with
    | none => simp [process_other_people, hp]
    | some n =>
      have := hall n hp
      simp [process_other_people, hp, this]

/-! ## Helper lemmas for the calendar -/

lemma natDigitsGo_digits (fuel : Nat) :
    ∀ (n : Nat) (acc : List Char), (∀ c ∈ acc, c.isDigit = true) →
      ∀ c ∈ natDigitsGo fuel n acc, c.isDigit = true := by
  induction fuel with
  | zero => intro n acc hacc; exact hacc
  | succ fuel ih =>
    intro n acc hacc c hc
    rw [natDigitsGo] at hc
    by_cases hn : n = 0
    · rw [if_pos hn] at hc
      exact hacc c hc
    · rw [if_neg hn] at hc
      refine ih (n / 10) _ ?_ c hc
      intro x hx
      rcases List.mem_cons.mp hx with rfl | hx'
      · have hr : n % 10 < 10 := Nat.mod_lt _ (by omega)
        set r := n % 10 with hrdef
        interval_cases r <;> decide
      · exact hacc x hx'

lemma natToStr_digits (n : Nat) : ∀ c ∈ (natToStr n).data, c.isDigit = true := by
  unfold natToStr
  by_cases hn : n = 0
  · rw [if_pos hn]
    intro c hc
    rw [show ("0" : String).data = ['0'] from rfl] at hc
    rcases List.mem_singleton.mp hc with rfl
    decide
  · rw [if_neg hn]
    exact natDigitsGo_digits _ _ _ (by intro c hc; exact absurd hc (List.not_mem_nil c))

lemma no_underscore_natToStr (n : Nat) : '_' ∉ (natToStr n).data := by
  intro h
  exact absurd (natToStr_digits n '_' h) (by decide)

lemma no_underscore_pad2 (n : Nat) : '_' ∉ (pad2 n).data := by
  unfold pad2
  by_cases h : n < 10
  · rw [if_pos h]
    intro hc
    rw [String.data_append] at hc
    rcases List.mem_append.mp hc with h1 | h2
    · rw [show ("0" : String).data = ['0'] from rfl] at h1
      exact absurd (List.mem_singleton.mp h1) (by decide)
    · exact no_underscore_natToStr n h2
  · rw [if_neg h]
    exact no_underscore_natToStr n

lemma no_underscore_iso (dt : Date) : '_' ∉ (isoDateStr dt).data := by
  unfold isoDateStr
  intro hc
  simp only [String.data_append] at hc
  rcases List.mem_append.mp hc with h1 | h2
  · rcases List.mem_append.mp h1 with h3 | h4
    · rcases List.mem_append.mp h3 with h5 | h6
      · rcases List.mem_append.mp h5 with h7 | h8
        · exact no_underscore_natToStr dt.year h7
        · exact absurd (List.mem_singleton.mp h8) (by decide)
      · exact no_underscore_pad2 dt.month h6
    · exact absurd (List.mem_singleton.mp h4) (by decide)
  · exact no_underscore_pad2 dt.day h2

lemma splitChar_ne_nil (sep : Char) (cs : List Char) : splitChar sep cs ≠ [] := by
  unfold splitChar
  split
  · simp
  · split
    · simp
    · split <;> simp

lemma splitChar_not_mem (sep : Char) (cs : List Char) (h : sep ∉ cs) :
    splitChar sep cs = [cs] := by
  induction cs with
  | nil => rfl
  | cons c rest ih =>
    have hc : c ≠ sep := fun he => h (he ▸ List.mem_cons_self c rest)
    rw [splitChar, if_neg hc, ih (fun hm => h (List.mem_cons_of_mem c hm))]

lemma splitChar_append_sep (sep : Char) (l₁ l₂ : List Char) (h : sep ∉ l₁) :
    splitChar sep (l₁ ++ sep :: l₂) = l₁ :: splitChar sep l₂ := by
  induction l₁ with
  | nil =>
    simp only [List.nil_append]
    rw [splitChar, if_pos rfl]
  | cons c cs ih =>
    have hc : c ≠ sep := fun he => h (he ▸ List.mem_cons_self c cs)
    have ih' := ih (fun hm => h (List.mem_cons_of_mem c hm))
    rw [List.cons_append, splitChar, if_neg hc, ih']

lemma splitPart2_calday (s : String) (h : '_' ∉ s.data) :
    splitPart2 ("cal_day_" ++ s) = s := by
  unfold splitPart2
  have hd : ("cal_day_" ++ s).data =
      ['c', 'a', 'l'] ++ '_' :: (['d', 'a', 'y'] ++ '_' :: s.data) := by
    rw [String.data_append]
    rfl
  rw [hd, splitChar_append_sep _ _ _ (by decide),
      splitChar_append_sep _ _ _ (by decide), splitChar_not_mem _ _ h]
  rfl

lemma splitPart2_calconfirm (s : String) (h : '_' ∉ s.data) :
    splitPart2 ("cal_confirm_" ++ s) = s := by
  unfold splitPart2
  have hd : ("cal_confirm_" ++ s).data =
      ['c', 'a', 'l'] ++ '_' :: (['c', 'o', 'n', 'f', 'i', 'r', 'm'] ++ '_' :: s.data) := by
    rw [String.data_append]
    rfl
  rw [hd, splitChar_append_sep _ _ _ (by decide),
      splitChar_append_sep _ _ _ (by decide), splitChar_not_mem _ _ h]
  rfl

lemma stepConv_cal_day (d : SessionData) (s : String) (h : '_' ∉ s.data) :
    stepConv ⟨some .start_date, d⟩ (.callback ("cal_day_" ++ s)) =
      ⟨some .start_date, { d with start_date := some s }⟩ := by
  have h1 : stepConv ⟨some .start_date, d⟩ (.callback ("cal_day_" ++ s)) =
      ⟨some .start_date,
        { d with start_date := some (splitPart2 ("cal_day_" ++ s)) }⟩ := rfl
  rw [h1, splitPart2_calday s h]

lemma stepConv_cal_confirm (d : SessionData) (s : String) (h : '_' ∉ s.data) :
    stepConv ⟨some .start_date, d⟩ (.callback ("cal_confirm_" ++ s)) =
      ⟨some .review, { d with start_date := some s }⟩ := by
  have h1 : stepConv ⟨some .start_date, d⟩ (.callback ("cal_confirm_" ++ s)) =
      ⟨some .review,
        { d with start_date := some (splitPart2 ("cal_confirm_" ++ s)) }⟩ := rfl
  rw [h1, splitPart2_calconfirm s h]

theorem custom_numbers_C6_witness :
    stepConv ⟨some .other_days, {}⟩ (.text " 12 ") =
      ⟨some .people, { days := some "12" }⟩ ∧
    stepConv ⟨some .other_days, {}⟩ (.text "0") = ⟨some .other_days, {}⟩ ∧
    stepConv ⟨some .other_people, {}⟩ (.text "7") =
      ⟨some .need_translator, { people := some "7" }⟩ ∧
    stepConv ⟨some .other_people, {}⟩ (.text "4") = ⟨some .other_people, {}⟩ :=
  ⟨by
    rw [(custom_numbers_C6 {} " 12 ").1 12 (by decide) (by decide)]
    decide,
   (custom_numbers_C6 {} "0").2.1 (by decide),
   by
    rw [(custom_numbers_C6 {} "7").2.2.1 7 (by decide) (by decide)]
    decide,
   (custom_numbers_C6 {} "4").2.2.2 (by decide)⟩

/-! ## C7: calendar rendering and selection -/

/-- C7: in the day-grid rendered at an instant whose current date is
`today`, every day button for a date strictly before `today` carries the
inert `cal_ignore` callback; every day button for `today` or later carries
`cal_day_<ISO date>`, and selecting it stores exactly that ISO
`YYYY-MM-DD` string as the start-date field (remaining in the start-date
step for the confirmation sub-step). -/
theorem calendar_days_C7 (year month : Nat) (today : Date) (d : SessionData)
    (week : List Nat) (day : Nat)
    (hw : week ∈ monthcalendar year month) (hd : day ∈ week) (h0 : day ≠ 0) :
    (Date.ltB ⟨year, month, day⟩ today = true →
      dayCellCallback year month day today = "cal_ignore") ∧
    (Date.ltB ⟨year, month, day⟩ today = false →
      dayCellCallback year month day today =
        "cal_day_" ++ isoDateStr ⟨year, month, day⟩ ∧
      stepConv ⟨some .start_date, d⟩
          (.callback (dayCellCallback year month day today)) =
        ⟨some .start_date,
          { d with start_date := some (isoDateStr ⟨year, month, day⟩) }⟩) := by
  constructor
  · intro hlt
    unfold dayCellCallback
    rw [if_neg h0, if_pos hlt]
  · intro hlt
    have hcb : dayCellCallback year month day today =
        "cal_day_" ++ isoDateStr ⟨year, month, day⟩ := by
      unfold dayCellCallback
      rw [if_neg h0, if_neg (by simp [hlt])]
    refine ⟨hcb, ?_⟩
    rw [hcb]
    exact stepConv_cal_day d _ (no_underscore_iso _)

theorem calendar_days_C7_witness :
    dayCellCallback 2025 10 7 ⟨2025, 10, 12⟩ = "cal_ignore" ∧
    dayCellCallback 2025 10 13 ⟨2025, 10, 12⟩ = "cal_day_2025-10-13" ∧
    stepConv ⟨some .start_date, {}⟩
        (.callback (dayCellCallback 2025 10 13 ⟨2025, 10, 12⟩)) =
      ⟨some .start_date, { start_date := some "2025-10-13" }⟩ := by
  refine ⟨?_, ?_, ?_⟩
  · exact (calendar_days_C7 2025 10 ⟨2025, 10, 12⟩ {} [6, 7, 8, 9, 10, 11, 12] 7
      (by decide) (by decide) (by decide)).1 (by decide)
  · have := (calendar_days_C7 2025 10 ⟨2025, 10, 12⟩ {} [13, 14, 15, 16, 17, 18, 19] 13
      (by decide) (by decide) (by decide)).2 (by decide)
    rw [this.1]
    decide
  · have := (calendar_days_C7 2025 10 ⟨2025, 10, 12⟩ {} [13, 14, 15, 16, 17, 18, 19] 13
      (by decide) (by decide) (by decide)).2 (by decide)
    rw [this.2]
    decide

/-! ## C1: the edit-mode round trip -/

lemma runEvents_cons (conv : Conv) (e : Event) (evs : List Event) :
    runEvents conv (e :: evs) = runEvents (stepConv conv e) evs := rfl

lemma runEvents_append (conv : Conv) (a b : List Event) :
    runEvents conv (a ++ b) = runEvents (runEvents conv a) b :=
  List.foldl_append stepConv conv a b

lemma runEvents_singleton (conv : Conv) (e : Event) :
    runEvents conv [e] = stepConv conv e := rfl

lemma ne_empty_of_one_le_length (s : String) (h : 1 ≤ s.length) : s ≠ "" := by
  intro he
  rw [he] at h
  exact absurd h (by decide)

lemma process_phone_ok (conv : Conv) (p : Option String)
    (h : format_phone_number p ≠ "") :
    process_phone conv p =
      if conv.d.editing_field = some "phone" then
        ⟨some .review,
          { conv.d with phone := some (format_phone_number p), editing_field := none }⟩
      else ⟨some .current_city, { conv.d with phone := some (format_phone_number p) }⟩ := by
  simp only [process_phone]
  rw [if_neg h]
  by_cases he : conv.d.editing_field = some "phone"
  · simp [he, show_review]
  · simp [he]

lemma storeCurrentCity_edit (conv : Conv) (city : String) (h : city ≠ "") :
    storeCurrentCity conv city =
      if conv.d.editing_field = some "current_city" then
        ⟨some .review, { conv.d with current_city := some city, editing_field := none }⟩
      else
        ⟨some .cities_to_visit,
          { conv.d with current_city := some city, cities_to_visit := some [], other_cities := some [] }⟩ := by
  simp only [storeCurrentCity]
  rw [if_neg h]
  by_cases he : conv.d.editing_field = some "current_city"
  · simp [he, show_review]
  · simp [he]

lemma process_days_value (conv : Conv) (data v : String)
    (hv : removeAllStr "days_" data = v) (hother : v ≠ "other") :
    process_days conv data =
      if conv.d.editing_field = some "days" then
        ⟨some .review, { conv.d with days := some v, editing_field := none }⟩
      else ⟨some .people, { conv.d with days := some v }⟩ := by
  simp only [process_days, hv]
  rw [if_neg hother]
  by_cases he : conv.d.editing_field = some "days"
  · simp [he, show_review]
  · simp [he]

lemma process_people_value (conv : Conv) (data v : String)
    (hv : removeAllStr "people_" data = v) (hother : v ≠ "4plus") :
    process_people conv data =
      if conv.d.editing_field = some "people" then
        ⟨some .review, { conv.d with people := some v, editing_field := none }⟩
      else ⟨some .need_translator, { conv.d with people := some v }⟩ := by
  simp only [process_people, hv]
  rw [if_neg hother]
  by_cases he : conv.d.editing_field = some "people"
  · simp [he, show_review]
  · simp [he]

lemma process_language_value (conv : Conv) (data lang : String)
    (hv : removeAllStr "lang_" data = lang) (hother : lang ≠ "other") :
    process_language conv data =
      if conv.d.editing_field = some "translator" then
        ⟨some .review,
          { conv.d with translator_language := some lang, editing_field := none }⟩
      else ⟨some .start_date, { conv.d with translator_language := some lang }⟩ := by
  simp only [process_language, hv]
  rw [if_neg hother]
  by_cases he : conv.d.editing_field = some "translator"
  · simp [he, show_review]
  · simp [he, show_start_date_calendar]

lemma stepConv_city_toggle (d : SessionData) (data name : String) (sel oth : List String)
    (hs : d.cities_to_visit = some sel) (ho : d.other_cities = some oth)
    (hpre : strStartsWith "city_" data = true)
    (hname : removeAllStr "city_" data = name)
    (hdone : name ≠ "done") (hother : name ≠ "other") :
    stepConv ⟨some .cities_to_visit, d⟩ (.callback data) =
      ⟨some .cities_to_visit,
        { d with cities_to_visit := some (applyCityToggle sel oth name).1,
                 other_cities := some (applyCityToggle sel oth name).2 }⟩ := by
  rw [stepConv_cities _ _ hpre, process_city_selection_toggle _ _ name hname hdone hother]
  show (⟨some Step.cities_to_visit,
      { d with
        cities_to_visit :=
          some (applyCityToggle (d.cities_to_visit.getD []) (d.other_cities.getD []) name).1,
        other_cities :=
          some (applyCityToggle (d.cities_to_visit.getD []) (d.other_cities.getD []) name).2 }⟩ :
      Conv) = _
  rw [hs, ho]
  rfl

lemma runEvents_city_toggles (names : List String) :
    ∀ (d : SessionData) (sel oth : List String),
      d.cities_to_visit = some sel → d.other_cities = some oth →
      (∀ n ∈ names, removeAllStr "city_" n = n ∧ n ≠ "done" ∧ n ≠ "other") →
      runEvents ⟨some .cities_to_visit, d⟩
          (names.map fun n => Event.callback ("city_" ++ n)) =
        ⟨some .cities_to_visit,
          { d with cities_to_visit := some (applyCityToggles (sel, oth) names).1,
                   other_cities := some (applyCityToggles (sel, oth) names).2 }⟩ := by
  induction names with
  | nil =>
    intro d sel oth hs ho _
    obtain ⟨u, fn, fl, lc, ph, cc, cv, oc, dy, pe, nt, tl, sd, rs, ef⟩ := d
    simp only at hs ho
    subst hs
    subst ho
    rfl
  | cons n names ih =>
    intro d sel oth hs ho hprop
    obtain ⟨hclean, hdone, hother⟩ := hprop n (List.mem_cons_self _ _)
    have hrest := fun m hm => hprop m (List.mem_cons_of_mem n hm)
    have hname : removeAllStr "city_" ("city_" ++ n) = n := by
      rw [show removeAllStr "city_" ("city_" ++ n) = removeAllStr "city_" n from rfl, hclean]
    rw [List.map_cons, runEvents_cons,
        stepConv_city_toggle d _ n sel oth hs ho (strStartsWith_append _ _)
          hname hdone hother,
        ih _ (applyCityToggle sel oth n).1 (applyCityToggle sel oth n).2 rfl rfl hrest]
    rfl

lemma step_city_done_editing (d : SessionData)
    (hne : ¬((d.cities_to_visit.getD []).length + (d.other_cities.getD []).length = 0))
    (he : d.editing_field = some "cities") :
    stepConv ⟨some .cities_to_visit, d⟩ (.callback "city_done") =
      ⟨some .review, { d with editing_field := none }⟩ := by
  rw [stepConv_cities d _ (by decide)]
  simp only [process_city_selection]
  rw [if_pos (by decide : removeAllStr "city_" "city_done" = "done"), if_neg hne,
      if_pos he]
  rfl

/-- C1: from the review step, entering edit mode for any editable field
(phone, current city, cities, days, people, translator, dates) and then
supplying a valid new value returns to the review step with exactly that
field holding the new value, the editing marker cleared, and every other
collected field unchanged.  The translator field comprises the flag and
language pair; the cities field comprises the preset and custom list pair.
Payload hypotheses of the form `removeAllStr p v = v` say the value
round-trips through the handler's `replace(p, "")` extraction. -/
theorem edit_roundtrip_C1 (d : SessionData) :
    (∀ t : String, phoneTextFilter t = true → (pyStrip t).data.any Char.isDigit = true →
      runEvents ⟨some .review, d⟩ [.callback "edit_phone", .text t] =
        ⟨some .review,
          { d with phone := some (format_phone_number (some (pyStrip t))), editing_field := none }⟩) ∧
    (∀ p : String, p.data.any Char.isDigit = true →
      runEvents ⟨some .review, d⟩ [.callback "edit_phone", .contact p] =
        ⟨some .review,
          { d with phone := some (format_phone_number (some p)), editing_field := none }⟩) ∧
    (∀ t : String, 2 ≤ (pyStrip t).length →
      runEvents ⟨some .review, d⟩ [.callback "edit_current_city", .text t] =
        ⟨some .review,
          { d with current_city := some (pyStrip t), editing_field := none }⟩) ∧
    (∀ (names sel oth : List String),
      d.cities_to_visit = some sel → d.other_cities = some oth →
      (∀ n ∈ names, removeAllStr "city_" n = n ∧ n ≠ "done" ∧ n ≠ "other") →
      ¬((applyCityToggles (sel, oth) names).1.length +
          (applyCityToggles (sel, oth) names).2.length = 0) →
      runEvents ⟨some .review, d⟩
          ((Event.callback "edit_cities" ::
            names.map fun n => Event.callback ("city_" ++ n)) ++
            [Event.callback "city_done"]) =
        ⟨some .review,
          { d with cities_to_visit := some (applyCityToggles (sel, oth) names).1, other_cities := some (applyCityToggles (sel, oth) names).2, editing_field := none }⟩) ∧
    (∀ v : String, removeAllStr "days_" v = v → v ≠ "other" →
      runEvents ⟨some .review, d⟩ [.callback "edit_days", .callback ("days_" ++ v)] =
        ⟨some .review, { d with days := some v, editing_field := none }⟩) ∧
    (∀ (t : String) (n : Int), pyParseInt (pyStrip t) = some n → 1 ≤ n →
      runEvents ⟨some .review, d⟩
          [.callback "edit_days", .callback "days_other", .text t] =
        ⟨some .review, { d with days := some (pyIntStr n), editing_field := none }⟩) ∧
    (∀ v : String, removeAllStr "people_" v = v → v ≠ "4plus" →
      runEvents ⟨some .review, d⟩ [.callback "edit_people", .callback ("people_" ++ v)] =
        ⟨some .review, { d with people := some v, editing_field := none }⟩) ∧
    (∀ (t : String) (n : Int), pyParseInt (pyStrip t) = some n → 5 ≤ n →
      runEvents ⟨some .review, d⟩
          [.callback "edit_people", .callback "people_4plus", .text t] =
        ⟨some .review, { d with people := some (pyIntStr n), editing_field := none }⟩) ∧
    (runEvents ⟨some .review, d⟩ [.callback "edit_translator", .callback "translator_no"] =
      ⟨some .review,
        { d with need_translator := some "No", translator_language := some "", editing_field := none }⟩) ∧
    (∀ L : String, removeAllStr "lang_" L = L → L ≠ "other" →
      runEvents ⟨some .review, d⟩
          [.callback "edit_translator", .callback "translator_yes",
           .callback ("lang_" ++ L)] =
        ⟨some .review,
          { d with need_translator := some "Yes", translator_language := some L, editing_field := none }⟩) ∧
    (∀ t : String, 1 ≤ (pyStrip t).length →
      runEvents ⟨some .review, d⟩
          [.callback "edit_translator", .callback "translator_yes",
           .callback "lang_other", .text t] =
        ⟨some .review,
          { d with need_translator := some "Yes", translator_language := some (pyStrip t), editing_field := none }⟩) ∧
    (∀ s : String, '_' ∉ s.data →
      runEvents ⟨some .review, d⟩
          [.callback "edit_dates", .callback ("cal_day_" ++ s),
           .callback ("cal_confirm_" ++ s)] =
        ⟨some .review, { d with start_date := some s, editing_field := none }⟩) := by
  refine ⟨?_, ?_, ?_, ?_, ?_, ?_, ?_, ?_, ?_, ?_, ?_, ?_⟩
  · -- phone via text
    intro t hf hd0
    have hfo : format_phone_number (some (pyStrip t)) ≠ "" := by
      rw [format_phone_number_of_digit hd0]
      exact plus_append_ne_empty _
    show stepConv (stepConv ⟨some .review, d⟩ (.callback "edit_phone")) (.text t) = _
    have h1 : stepConv ⟨some .review, d⟩ (.callback "edit_phone") =
        ⟨some .phone, { d with editing_field := some "phone" }⟩ := rfl
    rw [h1]
    show (if phoneTextFilter t = true then
        process_phone ⟨some .phone, { d with editing_field := some "phone" }⟩
          (some (pyStrip t))
      else ⟨some .phone, { d with editing_field := some "phone" }⟩) = _
    rw [hf, if_pos rfl, process_phone_ok _ _ hfo, if_pos rfl]
  · -- phone via contact
    intro p hd0
    have hfo : format_phone_number (some p) ≠ "" := by
      rw [format_phone_number_of_digit hd0]
      exact plus_append_ne_empty _
    show process_phone ⟨some .phone, { d with editing_field := some "phone" }⟩ (some p) = _
    rw [process_phone_ok _ _ hfo, if_pos rfl]
  · -- current city
    intro t hlen
    show process_current_city
        ⟨some .current_city, { d with editing_field := some "current_city" }⟩ (.text t) = _
    simp only [process_current_city]
    rw [if_neg (by omega),
        storeCurrentCity_edit _ _ (ne_empty_of_one_le_length _ (by omega)), if_pos rfl]
  · -- cities
    intro names sel oth hs ho hprop hne
    rw [List.cons_append, runEvents_cons]
    have h1 : stepConv ⟨some .review, d⟩ (.callback "edit_cities") =
        ⟨some .cities_to_visit, { d with editing_field := some "cities" }⟩ := rfl
    have h2 := runEvents_city_toggles names { d with editing_field := some "cities" }
      sel oth hs ho hprop
    rw [h1, runEvents_append, h2, runEvents_singleton]
    exact step_city_done_editing _ hne rfl
  · -- days preset
    intro v hclean hother
    have hv : removeAllStr "days_" ("days_" ++ v) = v := by
      rw [show removeAllStr "days_" ("days_" ++ v) = removeAllStr "days_" v from rfl,
          hclean]
    show stepConv (stepConv ⟨some .review, d⟩ (.callback "edit_days"))
        (.callback ("days_" ++ v)) = _
    have h1 : stepConv ⟨some .review, d⟩ (.callback "edit_days") =
        ⟨some .days, { d with editing_field := some "days" }⟩ := rfl
    rw [h1]
    show process_days ⟨some .days, { d with editing_field := some "days" }⟩
        ("days_" ++ v) = _
    rw [process_days_value _ _ v hv hother, if_pos rfl]
  · -- days custom
    intro t n hp h1n
    show process_other_days ⟨some .other_days, { d with editing_field := some "days" }⟩ t = _
    simp only [process_other_days, hp]
    rw [if_neg (by omega)]
    rfl
  · -- people preset
    intro v hclean hother
    have hv : removeAllStr "people_" ("people_" ++ v) = v := by
      rw [show removeAllStr "people_" ("people_" ++ v) = removeAllStr "people_" v from rfl,
          hclean]
    show process_people ⟨some .people, { d with editing_field := some "people" }⟩
        ("people_" ++ v) = _
    rw [process_people_value _ _ v hv hother, if_pos rfl]
  · -- people custom
    intro t n hp h5n
    show process_other_people
        ⟨some .other_people, { d with editing_field := some "people" }⟩ t = _
    simp only [process_other_people, hp]
    rw [if_neg (by omega)]
    rfl
  · -- translator "no"
    rfl
  · -- translator yes, preset language
    intro L hclean hother
    have hv : removeAllStr "lang_" ("lang_" ++ L) = L := by
      rw [show removeAllStr "lang_" ("lang_" ++ L) = removeAllStr "lang_" L from rfl,
          hclean]
    show process_language
        ⟨some .translator_language,
          { d with need_translator := some "Yes", editing_field := some "translator" }⟩
        ("lang_" ++ L) = _
    rw [process_language_value _ _ L hv hother, if_pos rfl]
  · -- translator yes, custom language
    intro t hlen
    show process_other_language
        ⟨some .other_language,
          { d with need_translator := some "Yes", editing_field := some "translator" }⟩
        t = _
    simp only [process_other_language]
    rw [if_neg (by omega)]
    rfl
  · -- dates
    intro s hus
    show stepConv (stepConv (stepConv ⟨some .review, d⟩ (.callback "edit_dates"))
        (.callback ("cal_day_" ++ s))) (.callback ("cal_confirm_" ++ s)) = _
    have h1 : stepConv ⟨some .review, d⟩ (.callback "edit_dates") =
        ⟨some .start_date, { d with editing_field := none }⟩ := rfl
    rw [h1, stepConv_cal_day _ _ hus, stepConv_cal_confirm _ _ hus]

theorem edit_roundtrip_C1_witness :
    runEvents ⟨some .review, {}⟩ [.callback "edit_phone", .text "+123"] =
      ⟨some .review, { phone := some "+123", editing_field := none }⟩ ∧
    runEvents ⟨some .review, {}⟩ [.callback "edit_phone", .contact "79-01"] =
      ⟨some .review, { phone := some "+7901", editing_field := none }⟩ ∧
    runEvents ⟨some .review, {}⟩ [.callback "edit_current_city", .text " Алматы "] =
      ⟨some .review, { current_city := some "Алматы", editing_field := none }⟩ ∧
    runEvents ⟨some .review, { cities_to_visit := some [], other_cities := some [] }⟩
        [.callback "edit_cities", .callback "city_Дубай", .callback "city_done"] =
      ⟨some .review,
        { cities_to_visit := some ["Дубай"], other_cities := some [], editing_field := none }⟩ ∧
    runEvents ⟨some .review, {}⟩ [.callback "edit_days", .callback "days_7"] =
      ⟨some .review, { days := some "7", editing_field := none }⟩ ∧
    runEvents ⟨some .review, {}⟩
        [.callback "edit_days", .callback "days_other", .text " 9 "] =
      ⟨some .review, { days := some "9", editing_field := none }⟩ ∧
    runEvents ⟨some .review, {}⟩ [.callback "edit_people", .callback "people_2"] =
      ⟨some .review, { people := some "2", editing_field := none }⟩ ∧
    runEvents ⟨some .review, {}⟩
        [.callback "edit_people", .callback "people_4plus", .text "12"] =
      ⟨some .review, { people := some "12", editing_field := none }⟩ ∧
    runEvents ⟨some .review, {}⟩ [.callback "edit_translator", .callback "translator_no"] =
      ⟨some .review,
        { need_translator := some "No", translator_language := some "", editing_field := none }⟩ ∧
    runEvents ⟨some .review, {}⟩
        [.callback "edit_translator", .callback "translator_yes", .callback "lang_EN"] =
      ⟨some .review,
        { need_translator := some "Yes", translator_language := some "EN", editing_field := none }⟩ ∧
    runEvents ⟨some .review, {}⟩
        [.callback "edit_translator", .callback "translator_yes", .callback "lang_other",
         .text "чеченский"] =
      ⟨some .review,
        { need_translator := some "Yes", translator_language := some "чеченский", editing_field := none }⟩ ∧
    runEvents ⟨some .review, {}⟩
        [.callback "edit_dates", .callback "cal_day_2026-01-02",
         .callback "cal_confirm_2026-01-02"] =
      ⟨some .review, { start_date := some "2026-01-02", editing_field := none }⟩ :=
  ⟨(edit_roundtrip_C1 {}).1 "+123" (by decide) (by decide),
   (edit_roundtrip_C1 {}).2.1 "79-01" (by decide),
   (edit_roundtrip_C1 {}).2.2.1 " Алматы " (by decide),
   (edit_roundtrip_C1 { cities_to_visit := some [], other_cities := some [] }).2.2.2.1
     ["Дубай"] [] [] rfl rfl (by decide) (by decide),
   (edit_roundtrip_C1 {}).2.2.2.2.1 "7" (by decide) (by decide),
   (edit_roundtrip_C1 {}).2.2.2.2.2.1 " 9 " 9 (by decide) (by decide),
   (edit_roundtrip_C1 {}).2.2.2.2.2.2.1 "2" (by decide) (by decide),
   (edit_roundtrip_C1 {}).2.2.2.2.2.2.2.1 "12" 12 (by decide) (by decide),
   (edit_roundtrip_C1 {}).2.2.2.2.2.2.2.2.1,
   (edit_roundtrip_C1 {}).2.2.2.2.2.2.2.2.2.1 "EN" (by decide) (by decide),
   (edit_roundtrip_C1 {}).2.2.2.2.2.2.2.2.2.2.1 "чеченский" (by decide),
   (edit_roundtrip_C1 {}).2.2.2.2.2.2.2.2.2.2.2 "2026-01-02" (by decide)⟩

end KEBot
